import Mathlib

/-
  A shallow embedding of the `TensorMap` layer of the metatensor library
  (file `src/tensor/mod.rs`): the invariant-checking constructor, the
  block selection functions and the in-place `components_to_properties`
  reshape entry point, together with proofs of the behavioural properties
  of this layer.
-/

set_option maxRecDepth 4000

namespace Metatensor

/-- A label value is a 32-bit integer in the source; it is only created,
compared and displayed here, so it is modelled as `Int`. -/
abbrev LabelValue := Int

/-- Modelled from the spec: a label table (`Labels`, §4.1) is an ordered,
named table of integer-tuple rows; `names` is the ordered sequence of column
names and `entries` the ordered sequence of rows. The `Labels` type itself is
not part of the sources under verification; only the accessors used by the
`TensorMap` layer are modelled. -/
structure Labels where
  names : List String
  entries : List (List LabelValue)
deriving DecidableEq, Repr

/-- Number of columns of a label table (`Labels::size`). -/
def Labels.size (l : Labels) : Nat := l.names.length

/-- Number of rows of a label table (`Labels::count`). -/
def Labels.count (l : Labels) : Nat := l.entries.length

/-- Modelled from the spec: `selection[0]`, the first row of a label table.
The table stores a flat buffer of values, so requesting row 0 of a
zero-column table yields the empty slice even when the table has no rows;
for a table with at least one column, a missing first row is a fatal
out-of-bounds access, modelled as `none`. -/
def Labels.index0 (l : Labels) : Option (List LabelValue) :=
  if l.size = 0 then some [] else l.entries.head?

/-- The error type surfaced by this layer: a human-readable invalid-parameter
message (§7 of the spec; the source only ever builds `Error::InvalidParameter`
in this file). -/
inductive Error where
  | InvalidParameter (message : String)
deriving DecidableEq, Repr

/-- A basic block: sample, component and property label tables. The numeric
array buffer is an opaque external collaborator (§1, §6 of the spec); its
flattened contents are carried as an abstract list so that theorems can state
that it is left untouched. -/
structure BasicBlock where
  samples : Labels
  components : List Labels
  properties : Labels
  data : List Int
deriving DecidableEq, Repr

/-- A tensor block: its values and a map from gradient parameter name to the
gradient basic block. The source keeps the gradients in a hash map with
unique keys; it is modelled as an association list. -/
structure TensorBlock where
  values : BasicBlock
  gradients : List (String × BasicBlock)
deriving DecidableEq, Repr

/-- The tensor map: a keys label table and a positionally aligned list of
blocks (`struct TensorMap` in `src/tensor/mod.rs`). -/
structure TensorMap where
  keys : Labels
  blocks : List TensorBlock
deriving DecidableEq, Repr

/-- The inner loop of `check_labels_names`: compare each component label
table of the block with the corresponding reference names. The source
indexes the reference list after having checked that both lists have the
same length, which is equivalent to this paired recursion. -/
def checkComponentsNames (context : String) :
    List Labels → List (List String) → Except Error Unit
  | [], _ => .ok ()
  | _ :: _, [] => .ok ()
  | c :: cs, n :: ns =>
    if c.names ≠ n then
      .error (.InvalidParameter ("all blocks must have the same component label names, got ["
        ++ String.intercalate ", " c.names ++ "] and ["
        ++ String.intercalate ", " n ++ "]" ++ context))
    else checkComponentsNames context cs ns

/-- `check_labels_names` from `src/tensor/mod.rs`: checks the sample names,
the number of components and the per-component names of a basic block
against the reference names taken from block 0. -/
def check_labels_names (block : BasicBlock) (sample_names : List String)
    (components_names : List (List String)) (context : String) : Except Error Unit :=
  if block.samples.names ≠ sample_names then
    .error (.InvalidParameter ("all blocks must have the same sample label names, got ["
      ++ String.intercalate ", " block.samples.names ++ "] and ["
      ++ String.intercalate ", " sample_names ++ "]" ++ context))
  else if block.components.length ≠ components_names.length then
    .error (.InvalidParameter ("all blocks must contains the same set of components, the current block has "
      ++ toString block.components.length ++ " components while the first block has "
      ++ toString components_names.length ++ context))
  else
    checkComponentsNames context block.components components_names

/-- Insert into an association list, replacing the value when the key is
already present: the semantics of a hash-map insert. -/
def mapInsert {α : Type} (m : List (String × α)) (k : String) (v : α) :
    List (String × α) :=
  match m with
  | [] => [(k, v)]
  | (k2, v2) :: rest => if k2 = k then (k, v) :: rest else (k2, v2) :: mapInsert rest k v

/-- Build a hash map from an association list by repeated insertion, as
`collect::<HashMap<_, _>>` does in the source. -/
def assocBuild {α : Type} (l : List (String × α)) : List (String × α) :=
  l.foldl (fun m p => mapInsert m p.1 p.2) []

/-- Lookup in an association list, as `HashMap::get`. -/
def mapGet {α : Type} : List (String × α) → String → Option α
  | [], _ => none
  | (k, v) :: rest, key => if key = k then some v else mapGet rest key

/-- The schema of the gradients of a block: for each gradient parameter, the
sample names and the per-component names of the gradient, in the order the
gradients are stored. -/
def gradientSchema (b : TensorBlock) : List (String × (List String × List (List String))) :=
  b.gradients.map (fun p => (p.1, (p.2.samples.names, p.2.components.map (fun c => c.names))))

/-- The `gradients_data` map built by `TensorMap::new` from block 0. -/
def buildGradientsData (b : TensorBlock) : List (String × (List String × List (List String))) :=
  assocBuild (gradientSchema b)

/-- The per-gradient loop of `TensorMap::new`: every gradient of the block is
looked up in the `gradients_data` map of block 0 and its label names are
checked. -/
def checkGradients (gradients_data : List (String × (List String × List (List String)))) :
    List (String × BasicBlock) → Except Error Unit
  | [] => .ok ()
  | (parameter, gradient) :: rest =>
    match mapGet gradients_data parameter with
    | none =>
      .error (.InvalidParameter ("missing gradient with respect to " ++ parameter
        ++ " in one of the blocks"))
    | some sc =>
      match check_labels_names gradient sc.1 sc.2
          (" for gradients with respect to " ++ parameter) with
      | .error e => .error e
      | .ok _ => checkGradients gradients_data rest

/-- The body of the validation loop of `TensorMap::new` for one block. -/
def checkBlock (sample_names : List String) (components_names : List (List String))
    (properties_names : List String)
    (gradients_data : List (String × (List String × List (List String))))
    (block : TensorBlock) : Except Error Unit :=
  match check_labels_names block.values sample_names components_names "" with
  | .error e => .error e
  | .ok _ =>
    if block.values.properties.names ≠ properties_names then
      .error (.InvalidParameter ("all blocks must have the same property label names, got ["
        ++ String.intercalate ", " block.values.properties.names ++ "] and ["
        ++ String.intercalate ", " properties_names ++ "]"))
    else if block.gradients.length ≠ gradients_data.length then
      .error (.InvalidParameter "all blocks must contains the same set of gradients")
    else checkGradients gradients_data block.gradients

/-- The validation loop of `TensorMap::new` over every block (block 0 is
checked against itself, as in the source). -/
def checkAllBlocks (sample_names : List String) (components_names : List (List String))
    (properties_names : List String)
    (gradients_data : List (String × (List String × List (List String)))) :
    List TensorBlock → Except Error Unit
  | [] => .ok ()
  | b :: rest =>
    match checkBlock sample_names components_names properties_names gradients_data b with
    | .error e => .error e
    | .ok _ => checkAllBlocks sample_names components_names properties_names gradients_data rest

/-- `TensorMap::new` from `src/tensor/mod.rs`: checks that the number of
blocks matches the number of key rows, then validates every block against
the sample, component, property and gradient label names of block 0. -/
def TensorMap.new (keys : Labels) (blocks : List TensorBlock) : Except Error TensorMap :=
  if blocks.length ≠ keys.count then
    .error (.InvalidParameter ("expected the same number of blocks ("
      ++ toString keys.count
      ++ ") as the number of entries in the keys when creating a tensor, got "
      ++ toString blocks.length))
  else
    match blocks with
    | [] => .ok { keys := keys, blocks := blocks }
    | b0 :: _ =>
      match checkAllBlocks b0.values.samples.names
          (b0.values.components.map (fun c => c.names))
          b0.values.properties.names (buildGradientsData b0) blocks with
      | .error e => .error e
      | .ok _ => .ok { keys := keys, blocks := blocks }

/-- The inner name-resolution loop of `find_matching_blocks`: the first index
of the requested name among the key names, if any. -/
def findNameIdx (requested : String) : List String → Option Nat
  | [] => none
  | name :: rest =>
    if requested = name then some 0
    else (findNameIdx requested rest).map (fun i => i + 1)

/-- The outer name-resolution loop of `find_matching_blocks`: resolve every
selected column name to its index among the key names, failing at the first
unknown name. -/
def resolveVariables (keyNames : List String) : List String → Except Error (List Nat)
  | [] => .ok []
  | requested :: rest =>
    match findNameIdx requested keyNames with
    | some i =>
      match resolveVariables keyNames rest with
      | .error e => .error e
      | .ok l => .ok (i :: l)
    | none =>
      .error (.InvalidParameter ("\x27" ++ requested
        ++ "\x27 is not part of the keys for this tensor"))

/-- The per-row test of `find_matching_blocks`: walk the resolved column
indices paired with the selected values and stop at the first mismatch. An
out-of-bounds access to the key row is a fatal failure, modelled as `none`. -/
def rowSelected (labels : List LabelValue) : List Nat → List LabelValue → Option Bool
  | [], _ => some true
  | _ :: _, [] => some true
  | i :: rest, v :: vs =>
    match labels.get? i with
    | none => none
    | some x => if x ≠ v then some false else rowSelected labels rest vs

/-- The scan of `find_matching_blocks` over the key rows, collecting the
indices of the rows selected by the requested values. -/
def findMatchingAux (vars : List Nat) (selected : List LabelValue) :
    List (List LabelValue) → Nat → Option (List Nat)
  | [], _ => some []
  | row :: rest, i =>
    match rowSelected row vars selected with
    | none => none
    | some true =>
      match findMatchingAux vars selected rest (i + 1) with
      | none => none
      | some l => some (i :: l)
    | some false => findMatchingAux vars selected rest (i + 1)

/-- `TensorMap::find_matching_blocks` from `src/tensor/mod.rs`. A `none`
result models a fatal (non-`Error`) failure: the `expect` on an empty
selection or an out-of-bounds key-row access. -/
def TensorMap.find_matching_blocks (tm : TensorMap) (selection : Labels) :
    Option (Except Error (List Nat)) :=
  if selection.size = 0 then
    some (.ok (List.range tm.blocks.length))
  else if selection.count ≠ 1 then
    some (.error (.InvalidParameter ("block selection labels must contain a single row, got "
      ++ toString selection.count)))
  else
    match resolveVariables tm.keys.names selection.names with
    | .error e => some (.error e)
    | .ok vars =>
      match selection.entries.head? with
      | none => none
      | some row =>
        match findMatchingAux vars row tm.keys.entries 0 with
        | none => none
        | some matching => some (.ok matching)

/-- The indexing loop of `blocks_matching`: collect the blocks at the matched
indices; an out-of-bounds index is a fatal failure, modelled as `none`. -/
def selectBlocks (blocks : List TensorBlock) : List Nat → Option (List TensorBlock)
  | [] => some []
  | i :: rest =>
    match blocks.get? i with
    | none => none
    | some b =>
      match selectBlocks blocks rest with
      | none => none
      | some bs => some (b :: bs)

/-- `TensorMap::blocks_matching` from `src/tensor/mod.rs`. -/
def TensorMap.blocks_matching (tm : TensorMap) (selection : Labels) :
    Option (Except Error (List TensorBlock)) :=
  match tm.find_matching_blocks selection with
  | none => none
  | some (.error e) => some (.error e)
  | some (.ok matching) =>
    match selectBlocks tm.blocks matching with
    | none => none
    | some bs => some (.ok bs)

/-- The rendering of a selection as `name = value` pairs joined by a comma,
used in the error message of `TensorMap::block`. -/
def renderSelection (names : List String) (row : List LabelValue) : String :=
  String.intercalate ", " ((names.zip row).map (fun p => p.1 ++ " = " ++ toString p.2))

/-- `TensorMap::block` from `src/tensor/mod.rs`: requires exactly one
matching block, otherwise reports the match count and the selection. -/
def TensorMap.block (tm : TensorMap) (selection : Labels) :
    Option (Except Error TensorBlock) :=
  match tm.find_matching_blocks selection with
  | none => none
  | some (.error e) => some (.error e)
  | some (.ok matching) =>
    if matching.length ≠ 1 then
      match selection.index0 with
      | none => none
      | some row =>
        some (.error (.InvalidParameter (toString matching.length
          ++ " blocks matched the selection (" ++ renderSelection selection.names row
          ++ "), expected only one")))
    else
      match matching.head? with
      | none => none
      | some i =>
        match tm.blocks.get? i with
        | none => none
        | some b => some (.ok b)

/-- Deduplicate a list keeping the first occurrence of each element. -/
def dedupFirstAux {α : Type} [DecidableEq α] (seen : List α) : List α → List α
  | [] => []
  | x :: xs =>
    if x ∈ seen then dedupFirstAux seen xs
    else x :: dedupFirstAux (x :: seen) xs

/-- The row-wise cartesian product of several row lists, concatenating one
row from each list. -/
def cartesianRows : List (List (List LabelValue)) → List (List LabelValue)
  | [] => [[]]
  | g :: rest => g.flatMap (fun r => (cartesianRows rest).map (fun t => r ++ t))

/-- Modelled from the spec (§4.4): split one component label table into the
extracted part (the columns named in `vars`: their names and the
distinct rows of their values) and the residual table of kept columns, which
is dropped entirely when no column is kept. -/
def splitComponent (vars : List String) (c : Labels) :
    Option (List String × List (List LabelValue)) × Option Labels :=
  let removed := (List.range c.names.length).filter
    (fun i => vars.contains (c.names.getD i ""))
  let kept := (List.range c.names.length).filter
    (fun i => !(vars.contains (c.names.getD i "")))
  if removed.isEmpty then
    (none, some c)
  else
    (some (removed.map (fun i => c.names.getD i ""),
        dedupFirstAux [] (c.entries.map (fun r => removed.map (fun i => r.getD i 0)))),
      if kept.isEmpty then none
      else some ⟨kept.map (fun i => c.names.getD i ""),
        dedupFirstAux [] (c.entries.map (fun r => kept.map (fun i => r.getD i 0)))⟩)

/-- Modelled from the spec (§4.4): move the named columns of the component
label tables of one basic block into the properties table. The extracted
distinct values become new leading property columns; a component table whose
columns are all extracted is removed from the component list (§9). The
opaque array buffer is reshaped by an external collaborator (§6) and its
flattened contents are carried unchanged. -/
def basicComponentsToProperties (vars : List String) (b : BasicBlock) : BasicBlock :=
  let split := b.components.map (splitComponent vars)
  let extracted := split.filterMap (fun s => s.1)
  { samples := b.samples
    components := split.filterMap (fun s => s.2)
    properties :=
      { names := (extracted.map (fun s => s.1)).flatten ++ b.properties.names
        entries := (cartesianRows (extracted.map (fun s => s.2))).flatMap
          (fun e => b.properties.entries.map (fun p => e ++ p)) }
    data := b.data }

/-- Modelled from the spec (§4.4): the first requested variable that is not
present in any component label table, if any; such a variable makes the
block-level reshape fail. -/
def missingVariable (componentNames : List (List String)) (vars : List String) :
    Option String :=
  vars.find? (fun v => !(componentNames.any (fun ns => ns.contains v)))

/-- Modelled from the spec (§4.4): `TensorBlock::components_to_properties`,
whose body is not part of the sources under verification. It fails with
`InvalidParameter` when a requested name is not present in any component
label table of the block and otherwise moves the named component columns
into the properties of the values and of every gradient (gradients share
the component and property schema of their parent). -/
def TensorBlock.components_to_properties (block : TensorBlock) (vars : List String) :
    Except Error TensorBlock :=
  match missingVariable (block.values.components.map (fun c => c.names)) vars with
  | some v =>
    .error (.InvalidParameter ("variable " ++ v
      ++ " is not part of the components of this block"))
  | none =>
    .ok { values := basicComponentsToProperties vars block.values
          gradients := block.gradients.map (fun p => (p.1, basicComponentsToProperties vars p.2)) }

/-- The loop of `TensorMap::components_to_properties`: transform the blocks
in order, stopping at the first error; the blocks already transformed keep
their new state, the failing block and the remaining ones their old state. -/
def c2pLoop (vars : List String) : List TensorBlock → List TensorBlock × Option Error
  | [] => ([], none)
  | b :: rest =>
    match b.components_to_properties vars with
    | .error e => (b :: rest, some e)
    | .ok b2 =>
      let r := c2pLoop vars rest
      (b2 :: r.1, r.2)

/-- `TensorMap::components_to_properties` from `src/tensor/mod.rs`: a no-op
for an empty variable list, otherwise the in-place per-block loop. The
result is the final state of the tensor map together with the error, if
any. -/
def TensorMap.components_to_properties (tm : TensorMap) (vars : List String) :
    TensorMap × Option Error :=
  if vars.isEmpty then (tm, none)
  else
    let r := c2pLoop vars tm.blocks
    ({ keys := tm.keys, blocks := r.1 }, r.2)

/-- One-column label tables with rows 0, 1, ..., as built by the
`example_labels` helper of the test suite of the source file. -/
def exampleLabels (name : String) (count : Nat) : Labels :=
  ⟨[name], (List.range count).map (fun i => [(i : Int)])⟩

/-- A block shaped (1 sample, 1 component, 1 property), as in the tests. -/
def blockA : TensorBlock :=
  ⟨⟨exampleLabels "samples" 1, [exampleLabels "components" 1],
    exampleLabels "properties" 1, []⟩, []⟩

/-- A block shaped (2 samples, 3 components, 1 property), as in the tests. -/
def blockB : TensorBlock :=
  ⟨⟨exampleLabels "samples" 2, [exampleLabels "components" 3],
    exampleLabels "properties" 1, []⟩, []⟩

/-- A block whose sample names differ from the other blocks, as in the tests. -/
def blockC : TensorBlock :=
  ⟨⟨exampleLabels "something_else" 2, [], exampleLabels "properties" 1, []⟩, []⟩

/-- A component-free block with the usual sample names, as in the tests. -/
def blockD : TensorBlock :=
  ⟨⟨exampleLabels "samples" 1, [], exampleLabels "properties" 1, []⟩, []⟩

/-- A two-block tensor map used as a concrete witness input. -/
def tmAB : TensorMap := ⟨exampleLabels "keys" 2, [blockA, blockB]⟩

/-- A key row agrees with a selection on every selected column: for each
selected column name paired with its selected value, the row value at the
first index of that name among the key names equals the selected value. -/
def agreesOnSelected (keyNames : List String) (selNames : List String)
    (vals : List LabelValue) (row : List LabelValue) : Bool :=
  (selNames.zip vals).all (fun q => row.getD (keyNames.indexOf q.1) 0 == q.2)

theorem selectBlocks_drop (l : List TensorBlock) :
    ∀ (t : List TensorBlock) (k : Nat), l.drop k = t →
      selectBlocks l ((List.range t.length).map (fun j => j + k)) = some t := by
  intro t
  induction t with
  | nil =>
    intro k _
    simp [selectBlocks]
  | cons b rest ih =>
    intro k hdrop
    have hget : l.get? k = some b := by
      have h0 : (l.drop k).get? 0 = some b := by rw [hdrop]; rfl
      rw [List.get?_drop] at h0
      simpa using h0
    have hdrop2 : l.drop (k + 1) = rest := by
      have h1 : List.drop 1 (List.drop k l) = List.drop (k + 1) l := List.drop_drop 1 k l
      rw [← h1, hdrop]
      rfl
    have hmap : (List.range (rest.length + 1)).map (fun j => j + k)
        = k :: (List.range rest.length).map (fun j => j + (k + 1)) := by
      simp only [List.range_succ_eq_map, List.map_cons, List.map_map, Nat.zero_add]
      congr 1
      exact List.map_congr_left fun j _ => by simp only [Function.comp_apply]; omega
    rw [List.length_cons, hmap]
    have hget2 : l[k]? = some b := by
      rw [← List.get?_eq_getElem?]
      exact hget
    simp [selectBlocks, hget2, ih (k + 1) hdrop2]

theorem selectBlocks_range (l : List TensorBlock) :
    selectBlocks l (List.range l.length) = some l := by
  have h := selectBlocks_drop l l 0 (by simp)
  simpa using h

/-- C7: a zero-column selection matches every block: `find_matching_blocks`
returns the indices 0 through blocks.length - 1 in ascending order and
`blocks_matching` returns all the blocks of the map in their original
order. -/
theorem zero_column_selection_matches_all (tm : TensorMap) (selection : Labels)
    (hsz : selection.names = []) :
    tm.find_matching_blocks selection = some (.ok (List.range tm.blocks.length)) ∧
    tm.blocks_matching selection = some (.ok tm.blocks) := by
  have hfind : tm.find_matching_blocks selection
      = some (.ok (List.range tm.blocks.length)) := by
    simp [TensorMap.find_matching_blocks, Labels.size, hsz]
  refine ⟨hfind, ?_⟩
  simp [TensorMap.blocks_matching, hfind, selectBlocks_range]

/-- Witness for C7 at a concrete non-empty tensor map and the zero-column
selection. -/
theorem zero_column_selection_matches_all_witness :
    (⟨[], []⟩ : Labels).names = [] ∧
    tmAB.find_matching_blocks ⟨[], []⟩ = some (.ok (List.range tmAB.blocks.length)) ∧
    tmAB.blocks_matching ⟨[], []⟩ = some (.ok tmAB.blocks) := by
  have h := zero_column_selection_matches_all tmAB ⟨[], []⟩ rfl
  exact ⟨rfl, h.1, h.2⟩

/-- C9: `components_to_properties` with an empty variable list succeeds and
leaves the tensor map (keys, block labels, data and gradients) unchanged. -/
theorem components_to_properties_empty_noop (tm : TensorMap) :
    tm.components_to_properties [] = (tm, none) := rfl

/-- C10: with at least one selected column, a selection whose row count is
not one (including zero rows) makes `find_matching_blocks` fail with the
single-row `InvalidParameter` error reporting the row count. -/
theorem find_matching_blocks_row_count_error (tm : TensorMap) (selection : Labels)
    (hsz : selection.names ≠ [])
    (hcount : selection.count ≠ 1) :
    tm.find_matching_blocks selection = some (.error (.InvalidParameter
      ("block selection labels must contain a single row, got "
        ++ toString selection.count))) := by
  have h1 : ¬ selection.size = 0 := by
    simp only [Labels.size, List.length_eq_zero]
    exact hsz
  simp [TensorMap.find_matching_blocks, h1, hcount]

/-- Witness for C10 at a one-column, zero-row selection. -/
theorem find_matching_blocks_row_count_error_witness :
    (⟨["keys"], []⟩ : Labels).names ≠ [] ∧
    (⟨["keys"], []⟩ : Labels).count ≠ 1 ∧
    tmAB.find_matching_blocks ⟨["keys"], []⟩ = some (.error (.InvalidParameter
      "block selection labels must contain a single row, got 0")) := by
  have h := find_matching_blocks_row_count_error tmAB ⟨["keys"], []⟩
    (by decide) (by decide)
  exact ⟨by decide, by decide, h⟩

theorem checkComponentsNames_refl (context : String) (cs : List Labels) :
    checkComponentsNames context cs (cs.map (fun c => c.names)) = .ok () := by
  induction cs with
  | nil => rfl
  | cons c rest ih => simp [checkComponentsNames, ih]

theorem check_labels_names_ok (block : BasicBlock) (sample_names : List String)
    (components_names : List (List String)) (context : String)
    (hs : block.samples.names = sample_names)
    (hc : block.components.map (fun c => c.names) = components_names) :
    check_labels_names block sample_names components_names context = .ok () := by
  unfold check_labels_names
  rw [if_neg (by simp [hs]), if_neg (by rw [← hc]; simp)]
  subst hc
  exact checkComponentsNames_refl context block.components

theorem mapInsert_append {α : Type} (m : List (String × α)) (k : String) (v : α)
    (h : k ∉ m.map Prod.fst) : mapInsert m k v = m ++ [(k, v)] := by
  induction m with
  | nil => rfl
  | cons p rest ih =>
    obtain ⟨k2, v2⟩ := p
    simp only [List.map_cons, List.mem_cons, not_or] at h
    have hk : ¬ k2 = k := fun he => h.1 he.symm
    simp [mapInsert, hk, ih h.2]

theorem assocBuild_foldl {α : Type} (l : List (String × α)) :
    ∀ acc : List (String × α), ((acc ++ l).map Prod.fst).Nodup →
      l.foldl (fun m p => mapInsert m p.1 p.2) acc = acc ++ l := by
  induction l with
  | nil => intro acc _; simp
  | cons p rest ih =>
    intro acc h
    obtain ⟨k, v⟩ := p
    have hnotin : k ∉ acc.map Prod.fst := by
      simp only [List.map_append, List.map_cons, List.nodup_append] at h
      intro hk
      exact h.2.2 hk (by simp)
    rw [List.foldl_cons]
    have h2 : (((acc ++ [(k, v)]) ++ rest).map Prod.fst).Nodup := by
      simpa [List.append_assoc] using h
    rw [mapInsert_append acc k v hnotin, ih (acc ++ [(k, v)]) h2]
    simp

theorem assocBuild_eq {α : Type} (l : List (String × α))
    (h : (l.map Prod.fst).Nodup) : assocBuild l = l := by
  have h2 := assocBuild_foldl l [] (by simpa using h)
  simpa [assocBuild] using h2

theorem mapGet_of_mem {α : Type} (l : List (String × α)) (k : String) (v : α)
    (hnd : (l.map Prod.fst).Nodup) (hmem : (k, v) ∈ l) : mapGet l k = some v := by
  induction l with
  | nil => simp at hmem
  | cons p rest ih =>
    obtain ⟨k2, v2⟩ := p
    simp only [List.map_cons, List.nodup_cons] at hnd
    rcases List.mem_cons.mp hmem with he | hm
    · have h1 : k = k2 := congrArg Prod.fst he
      have h2 : v = v2 := congrArg Prod.snd he
      simp [mapGet, h1, h2]
    · have hk : ¬ k = k2 := by
        intro he
        exact hnd.1 (he ▸ List.mem_map.mpr ⟨(k, v), hm, rfl⟩)
      simp [mapGet, hk, ih hnd.2 hm]

theorem gradientSchema_keys (b : TensorBlock) :
    (gradientSchema b).map Prod.fst = b.gradients.map Prod.fst := by
  simp only [gradientSchema, List.map_map]
  exact List.map_congr_left fun p _ => rfl

theorem checkGradients_ok (gd : List (String × (List String × List (List String))))
    (grads : List (String × BasicBlock))
    (h : ∀ p ∈ grads, mapGet gd p.1
      = some (p.2.samples.names, p.2.components.map (fun c => c.names))) :
    checkGradients gd grads = .ok () := by
  induction grads with
  | nil => rfl
  | cons pg rest ih =>
    obtain ⟨parameter, gradient⟩ := pg
    have hp := h (parameter, gradient) (by simp)
    simp only [checkGradients, hp]
    rw [check_labels_names_ok _ _ _ _ rfl rfl]
    exact ih fun p hp2 => h p (by simp [hp2])

theorem checkBlock_ok (b0 b : TensorBlock)
    (hnd : (b0.gradients.map Prod.fst).Nodup)
    (hs : b.values.samples.names = b0.values.samples.names)
    (hc : b.values.components.map (fun c => c.names)
      = b0.values.components.map (fun c => c.names))
    (hp : b.values.properties.names = b0.values.properties.names)
    (hg : gradientSchema b = gradientSchema b0) :
    checkBlock b0.values.samples.names (b0.values.components.map (fun c => c.names))
      b0.values.properties.names (buildGradientsData b0) b = .ok () := by
  have hnd0 : ((gradientSchema b0).map Prod.fst).Nodup := by
    rw [gradientSchema_keys]
    exact hnd
  have hbuild : buildGradientsData b0 = gradientSchema b0 :=
    assocBuild_eq (gradientSchema b0) hnd0
  unfold checkBlock
  rw [check_labels_names_ok b.values _ _ _ hs hc]
  rw [if_neg (by simp [hp])]
  have hlen : b.gradients.length = (buildGradientsData b0).length := by
    rw [hbuild]
    have h2 : (gradientSchema b).length = (gradientSchema b0).length := by rw [hg]
    simpa [gradientSchema] using h2
  rw [if_neg (by simp [hlen])]
  apply checkGradients_ok
  intro p hpin
  rw [hbuild, ← hg]
  apply mapGet_of_mem
  · rw [hg]
    exact hnd0
  · exact List.mem_map.mpr ⟨p, hpin, rfl⟩

theorem checkAllBlocks_ok (sn : List String) (cn : List (List String)) (pn : List String)
    (gd : List (String × (List String × List (List String)))) (bs : List TensorBlock)
    (h : ∀ b ∈ bs, checkBlock sn cn pn gd b = .ok ()) :
    checkAllBlocks sn cn pn gd bs = .ok () := by
  induction bs with
  | nil => rfl
  | cons b rest ih =>
    simp [checkAllBlocks, h b (by simp), ih fun b2 hb => h b2 (by simp [hb])]

/-- C1: when the number of blocks equals the number of key rows and every
block has the same sample, component, property and gradient label names as
block 0 (vacuously for an empty block list, and with the gradient names of
block 0 being unique as they come from a hash map), `TensorMap::new`
succeeds and the resulting map holds exactly the given keys and the given
blocks, positionally. -/
theorem tensorMap_new_ok (keys : Labels) (blocks : List TensorBlock)
    (hlen : blocks.length = keys.count)
    (hschema : ∀ b0, blocks.head? = some b0 →
      (b0.gradients.map Prod.fst).Nodup ∧
      ∀ b ∈ blocks,
        b.values.samples.names = b0.values.samples.names ∧
        b.values.components.map (fun c => c.names)
          = b0.values.components.map (fun c => c.names) ∧
        b.values.properties.names = b0.values.properties.names ∧
        gradientSchema b = gradientSchema b0) :
    TensorMap.new keys blocks = .ok ⟨keys, blocks⟩ := by
  unfold TensorMap.new
  rw [if_neg (by simp [hlen])]
  cases blocks with
  | nil => rfl
  | cons b0 rest =>
    obtain ⟨hnd, hall⟩ := hschema b0 rfl
    have hcheck : checkAllBlocks b0.values.samples.names
        (b0.values.components.map (fun c => c.names)) b0.values.properties.names
        (buildGradientsData b0) (b0 :: rest) = .ok () :=
      checkAllBlocks_ok _ _ _ _ _ fun b hb => by
        obtain ⟨hs, hc, hp, hg⟩ := hall b hb
        exact checkBlock_ok b0 b hnd hs hc hp hg
    simp [hcheck]

/-- Witness for C1: a keys table with two rows and two blocks sharing all
label names (the first valid scenario of the test suite of the source). -/
theorem tensorMap_new_ok_witness :
    [blockA, blockB].length = (exampleLabels "keys" 2).count ∧
    TensorMap.new (exampleLabels "keys" 2) [blockA, blockB]
      = .ok ⟨exampleLabels "keys" 2, [blockA, blockB]⟩ :=
  ⟨by decide, tensorMap_new_ok (exampleLabels "keys" 2) [blockA, blockB] (by decide) (by
    intro b0 hb0
    have hb : blockA = b0 := by simpa using hb0
    subst hb
    decide)⟩

/-- C4: with two key rows, a block 0 with sample names `[samples]` and a
block 1 with sample names `[something_else]`, `TensorMap::new` fails with
exactly the sample-name mismatch message; in general a sample-name mismatch
error of `check_labels_names` names both conflicting name lists, the
offending block first. -/
theorem new_sample_names_mismatch (keys : Labels) (b0 b1 : TensorBlock)
    (hcount : keys.count = 2)
    (hnd : (b0.gradients.map Prod.fst).Nodup)
    (h0 : b0.values.samples.names = ["samples"])
    (h1 : b1.values.samples.names = ["something_else"]) :
    (∀ (block : BasicBlock) (sn : List String) (cn : List (List String)) (ctx : String),
      block.samples.names ≠ sn →
      check_labels_names block sn cn ctx = .error (.InvalidParameter
        ("all blocks must have the same sample label names, got ["
          ++ String.intercalate ", " block.samples.names ++ "] and ["
          ++ String.intercalate ", " sn ++ "]" ++ ctx))) ∧
    TensorMap.new keys [b0, b1] = .error (.InvalidParameter
      "all blocks must have the same sample label names, got [something_else] and [samples]") := by
  constructor
  · intro block sn cn ctx hs
    unfold check_labels_names
    rw [if_pos hs]
  · have hfirst : checkBlock b0.values.samples.names
        (b0.values.components.map (fun c => c.names)) b0.values.properties.names
        (buildGradientsData b0) b0 = .ok () :=
      checkBlock_ok b0 b0 hnd rfl rfl rfl rfl
    have hsecond : check_labels_names b1.values b0.values.samples.names
        (b0.values.components.map (fun c => c.names)) "" = .error (.InvalidParameter
        "all blocks must have the same sample label names, got [something_else] and [samples]") := by
      unfold check_labels_names
      rw [h0, h1, if_pos (by decide)]
      rfl
    have hblock : checkBlock b0.values.samples.names
        (b0.values.components.map (fun c => c.names)) b0.values.properties.names
        (buildGradientsData b0) b1 = .error (.InvalidParameter
        "all blocks must have the same sample label names, got [something_else] and [samples]") := by
      simp [checkBlock, hsecond]
    have hall : checkAllBlocks b0.values.samples.names
        (b0.values.components.map (fun c => c.names)) b0.values.properties.names
        (buildGradientsData b0) [b0, b1] = .error (.InvalidParameter
        "all blocks must have the same sample label names, got [something_else] and [samples]") := by
      have hstep : checkAllBlocks b0.values.samples.names
          (b0.values.components.map (fun c => c.names)) b0.values.properties.names
          (buildGradientsData b0) [b0, b1] = checkAllBlocks b0.values.samples.names
          (b0.values.components.map (fun c => c.names)) b0.values.properties.names
          (buildGradientsData b0) [b1] := by
        simp [checkAllBlocks, hfirst]
      rw [hstep]
      simp [checkAllBlocks, hblock]
    unfold TensorMap.new
    rw [if_neg (by simp [hcount])]
    simp [hall]

/-- Witness for C4: the exact scenario of the `blocks_validation` test of
the source file. -/
theorem new_sample_names_mismatch_witness :
    (exampleLabels "keys" 2).count = 2 ∧
    TensorMap.new (exampleLabels "keys" 2) [blockD, blockC] = .error (.InvalidParameter
      "all blocks must have the same sample label names, got [something_else] and [samples]") :=
  ⟨by decide, (new_sample_names_mismatch (exampleLabels "keys" 2) blockD blockC
    (by decide) (by decide) (by decide) (by decide)).2⟩

theorem findNameIdx_none_iff (requested : String) (names : List String) :
    findNameIdx requested names = none ↔ requested ∉ names := by
  induction names with
  | nil => simp [findNameIdx]
  | cons n rest ih =>
    by_cases he : requested = n
    · simp [findNameIdx, he]
    · simp [findNameIdx, he, ih]

theorem resolveVariables_unknown (keyNames : List String) :
    ∀ selNames : List String, (∃ n ∈ selNames, n ∉ keyNames) →
      ∃ c, c ∈ selNames ∧ c ∉ keyNames ∧
        resolveVariables keyNames selNames = .error (.InvalidParameter
          ("\x27" ++ c ++ "\x27 is not part of the keys for this tensor")) := by
  intro selNames
  induction selNames with
  | nil => intro hbad; simp at hbad
  | cons n rest ih =>
    intro hbad
    rcases hfi : findNameIdx n keyNames with _ | i
    · refine ⟨n, by simp, (findNameIdx_none_iff n keyNames).mp hfi, ?_⟩
      simp [resolveVariables, hfi]
    · have hn : n ∈ keyNames := by
        by_contra hnot
        rw [← findNameIdx_none_iff n keyNames] at hnot
        simp [hnot] at hfi
      obtain ⟨m, hm, hmk⟩ := hbad
      rcases List.mem_cons.mp hm with rfl | hmr
      · exact absurd hn hmk
      obtain ⟨c, hc1, hc2, hc3⟩ := ih ⟨m, hmr, hmk⟩
      refine ⟨c, by simp [hc1], hc2, ?_⟩
      simp [resolveVariables, hfi, hc3]

/-- C8: a single-row selection with a column name absent from the key names
makes `find_matching_blocks` — and hence `blocks_matching` and `block` —
fail with an `InvalidParameter` error naming the offending column. -/
theorem unknown_selection_column (tm : TensorMap) (selection : Labels)
    (hcount : selection.count = 1)
    (hbad : ∃ n ∈ selection.names, n ∉ tm.keys.names) :
    ∃ c, c ∈ selection.names ∧ c ∉ tm.keys.names ∧
      tm.find_matching_blocks selection = some (.error (.InvalidParameter
        ("\x27" ++ c ++ "\x27 is not part of the keys for this tensor"))) ∧
      tm.blocks_matching selection = some (.error (.InvalidParameter
        ("\x27" ++ c ++ "\x27 is not part of the keys for this tensor"))) ∧
      tm.block selection = some (.error (.InvalidParameter
        ("\x27" ++ c ++ "\x27 is not part of the keys for this tensor"))) := by
  obtain ⟨c, hc1, hc2, hres⟩ := resolveVariables_unknown tm.keys.names selection.names hbad
  have hsz : ¬ selection.size = 0 := by
    obtain ⟨n, hn, _⟩ := hbad
    simp only [Labels.size, List.length_eq_zero]
    intro he
    rw [he] at hn
    simp at hn
  have hfind : tm.find_matching_blocks selection = some (.error (.InvalidParameter
      ("\x27" ++ c ++ "\x27 is not part of the keys for this tensor"))) := by
    unfold TensorMap.find_matching_blocks
    rw [if_neg hsz, if_neg (by simp [hcount])]
    simp [hres]
  refine ⟨c, hc1, hc2, hfind, ?_, ?_⟩
  · simp [TensorMap.blocks_matching, hfind]
  · simp [TensorMap.block, hfind]

/-- Witness for C8 at a selection naming a column absent from the keys. -/
theorem unknown_selection_column_witness :
    (⟨["nope"], [[0]]⟩ : Labels).count = 1 ∧
    "nope" ∈ (⟨["nope"], [[0]]⟩ : Labels).names ∧ "nope" ∉ tmAB.keys.names ∧
    tmAB.block ⟨["nope"], [[0]]⟩ = some (.error (.InvalidParameter
      "\x27nope\x27 is not part of the keys for this tensor")) := by
  obtain ⟨c, hc1, hc2, h1, h2, h3⟩ := unknown_selection_column tmAB ⟨["nope"], [[0]]⟩
    (by decide) ⟨"nope", by decide, by decide⟩
  have hc : c = "nope" := by simpa using hc1
  subst hc
  exact ⟨by decide, by decide, by decide, h3⟩

theorem find_ok_index0 (tm : TensorMap) (selection : Labels) (matching : List Nat)
    (hf : tm.find_matching_blocks selection = some (.ok matching)) :
    ∃ row, selection.index0 = some row := by
  by_cases hsz : selection.size = 0
  · exact ⟨[], by simp [Labels.index0, hsz]⟩
  · by_cases hct : selection.count = 1
    · have hne : selection.entries ≠ [] := by
        intro he
        rw [Labels.count, he] at hct
        simp at hct
      obtain ⟨r, rest, hr⟩ := List.exists_cons_of_ne_nil hne
      exact ⟨r, by simp [Labels.index0, hsz, hr]⟩
    · unfold TensorMap.find_matching_blocks at hf
      rw [if_neg hsz, if_pos hct] at hf
      exact absurd hf (by simp)

/-- C5: when `find_matching_blocks` returns a number of matches different
from one, `block` fails with an `InvalidParameter` error reporting the match
count and the selection as `name = value` pairs joined by a comma; when it
returns exactly one match, `block` returns that block. -/
theorem block_match_count (tm : TensorMap) (selection : Labels) (matching : List Nat)
    (hf : tm.find_matching_blocks selection = some (.ok matching)) :
    (matching.length ≠ 1 → ∃ row, selection.index0 = some row ∧
      tm.block selection = some (.error (.InvalidParameter (toString matching.length
        ++ " blocks matched the selection (" ++ renderSelection selection.names row
        ++ "), expected only one")))) ∧
    (∀ i b, matching = [i] → tm.blocks.get? i = some b →
      tm.block selection = some (.ok b)) := by
  constructor
  · intro hne
    obtain ⟨row, hrow⟩ := find_ok_index0 tm selection matching hf
    refine ⟨row, hrow, ?_⟩
    unfold TensorMap.block
    rw [hf]
    simp [hne, hrow]
  · intro i b hm hb
    have hb2 : tm.blocks[i]? = some b := by
      rw [← List.get?_eq_getElem?]
      exact hb
    unfold TensorMap.block
    rw [hf]
    subst hm
    simp [hb2]

/-- Witness for C5: the zero-matches side at a zero-column selection on a
two-block map, and the unique-match side at a one-row key selection. -/
theorem block_match_count_witness :
    tmAB.find_matching_blocks ⟨[], []⟩ = some (.ok [0, 1]) ∧
    tmAB.block ⟨[], []⟩ = some (.error (.InvalidParameter
      "2 blocks matched the selection (), expected only one")) ∧
    tmAB.find_matching_blocks ⟨["keys"], [[1]]⟩ = some (.ok [1]) ∧
    tmAB.block ⟨["keys"], [[1]]⟩ = some (.ok blockB) := by
  have h := block_match_count tmAB ⟨[], []⟩ [0, 1] (by rfl)
  obtain ⟨row, hrow, herr⟩ := h.1 (by decide)
  have h0 : (⟨[], []⟩ : Labels).index0 = some [] := rfl
  rw [h0] at hrow
  have hrow2 : row = [] := (Option.some_inj.mp hrow).symm
  subst hrow2
  have h2 := block_match_count tmAB ⟨["keys"], [[1]]⟩ [1] (by rfl)
  exact ⟨by rfl, herr, by rfl, h2.2 1 blockB rfl (by rfl)⟩

theorem rowSelected_eq_all (row : List LabelValue) :
    ∀ (vars : List Nat) (vals : List LabelValue), (∀ i ∈ vars, i < row.length) →
      rowSelected row vars vals
        = some ((vars.zip vals).all (fun q => row.getD q.1 0 == q.2)) := by
  intro vars
  induction vars with
  | nil =>
    intro vals _
    simp [rowSelected]
  | cons i rest ih =>
    intro vals h
    cases vals with
    | nil => simp [rowSelected, List.zip_nil_right]
    | cons v vs =>
      have hi : i < row.length := h i (by simp)
      have hx : row.get? i = some (row.get ⟨i, hi⟩) := List.get?_eq_get hi
      have hgd : row.getD i 0 = row.get ⟨i, hi⟩ := by
        rw [List.getD_eq_get?, hx]
        rfl
      rw [List.zip_cons_cons, List.all_cons]
      simp only [rowSelected]
      rw [hx]
      show (if row.get ⟨i, hi⟩ ≠ v then some false else rowSelected row rest vs)
        = some ((row.getD i 0 == v) && (rest.zip vs).all fun q => row.getD q.1 0 == q.2)
      by_cases hxv : row.get ⟨i, hi⟩ = v
      · rw [if_neg (by simpa using hxv)]
        rw [ih vs fun j hj => h j (by simp [hj])]
        have hb : (row.getD i 0 == v) = true := by
          rw [hgd, hxv]
          simp
        rw [hb]
        simp
      · rw [if_pos (by simpa using hxv)]
        have hb : (row.getD i 0 == v) = false := by
          rw [hgd]
          simpa using hxv
        rw [hb]
        simp

theorem findNameIdx_lt (n : String) : ∀ (names : List String) (j : Nat),
    findNameIdx n names = some j → j < names.length := by
  intro names
  induction names with
  | nil => intro j h; simp [findNameIdx] at h
  | cons m rest ih =>
    intro j h
    by_cases he : n = m
    · simp [findNameIdx, he] at h
      simp [List.length_cons]
      omega
    · simp only [findNameIdx, if_neg he] at h
      rw [Option.map_eq_some'] at h
      obtain ⟨j2, hj2, hj⟩ := h
      have hlt := ih j2 hj2
      simp only [List.length_cons]
      omega

theorem resolveVariables_lt (keyNames : List String) :
    ∀ (selNames : List String) (vars : List Nat),
      resolveVariables keyNames selNames = .ok vars → ∀ i ∈ vars, i < keyNames.length := by
  intro selNames
  induction selNames with
  | nil =>
    intro vars h i hi
    simp [resolveVariables] at h
    rw [h] at hi
    simp at hi
  | cons n rest ih =>
    intro vars h i hi
    simp only [resolveVariables] at h
    rcases hfi : findNameIdx n keyNames with _ | j
    · rw [hfi] at h
      exact absurd h (by simp)
    · rw [hfi] at h
      rcases hres : resolveVariables keyNames rest with e | l
      · rw [hres] at h
        exact absurd h (by simp)
      · rw [hres] at h
        have hv : j :: l = vars := by simpa using h
        rw [← hv] at hi
        rcases List.mem_cons.mp hi with rfl | hil
        · exact findNameIdx_lt n keyNames i hfi
        · exact ih l hres i hil

theorem findMatchingAux_isSome (vars : List Nat) (vals : List LabelValue) :
    ∀ (rows : List (List LabelValue)) (k : Nat),
      (∀ r ∈ rows, ∀ i ∈ vars, i < r.length) →
      ∃ l, findMatchingAux vars vals rows k = some l ∧ ∀ j ∈ l, k ≤ j ∧ j < k + rows.length := by
  intro rows
  induction rows with
  | nil => intro k _; exact ⟨[], rfl, by simp⟩
  | cons row rest ih =>
    intro k h
    have hrow := rowSelected_eq_all row vars vals (h row (by simp))
    obtain ⟨l, hl, hbound⟩ := ih (k + 1) fun r hr => h r (by simp [hr])
    rcases hb : (vars.zip vals).all (fun q => row.getD q.1 0 == q.2) with _ | _
    · rw [hb] at hrow
      refine ⟨l, by simp [findMatchingAux, hrow, hl], fun j hj => ?_⟩
      have := hbound j hj
      constructor
      · omega
      · simp only [List.length_cons]
        omega
    · rw [hb] at hrow
      refine ⟨k :: l, by simp [findMatchingAux, hrow, hl], fun j hj => ?_⟩
      rcases List.mem_cons.mp hj with rfl | hjl
      · simp only [List.length_cons]
        omega
      · have := hbound j hjl
        constructor
        · omega
        · simp only [List.length_cons]
          omega

theorem selectBlocks_isSome (blocks : List TensorBlock) :
    ∀ l : List Nat, (∀ j ∈ l, j < blocks.length) →
      ∃ bs, selectBlocks blocks l = some bs := by
  intro l
  induction l with
  | nil => intro _; exact ⟨[], rfl⟩
  | cons i rest ih =>
    intro h
    obtain ⟨b, hb⟩ : ∃ b, blocks[i]? = some b :=
      ⟨_, by rw [← List.get?_eq_getElem?]; exact List.get?_eq_get (h i (by simp))⟩
    obtain ⟨bs, hbs⟩ := ih fun j hj => h j (by simp [hj])
    exact ⟨b :: bs, by simp [selectBlocks, hb, hbs]⟩

theorem find_some_bounded (tm : TensorMap) (selection : Labels)
    (hlen : tm.blocks.length = tm.keys.count)
    (hkeys : ∀ r ∈ tm.keys.entries, r.length = tm.keys.names.length) :
    (∃ e, tm.find_matching_blocks selection = some (.error e)) ∨
    (∃ l, tm.find_matching_blocks selection = some (.ok l) ∧ ∀ j ∈ l, j < tm.blocks.length) := by
  by_cases hsz : selection.size = 0
  · right
    refine ⟨List.range tm.blocks.length, ?_, fun j hj => List.mem_range.mp hj⟩
    unfold TensorMap.find_matching_blocks
    rw [if_pos hsz]
  · by_cases hct : selection.count ≠ 1
    · left
      refine ⟨.InvalidParameter ("block selection labels must contain a single row, got "
        ++ toString selection.count), ?_⟩
      unfold TensorMap.find_matching_blocks
      rw [if_neg hsz, if_pos hct]
    · push_neg at hct
      rcases hres : resolveVariables tm.keys.names selection.names with e | vars
      · left
        refine ⟨e, ?_⟩
        unfold TensorMap.find_matching_blocks
        rw [if_neg hsz, if_neg (by simp [hct]), hres]
      · have hne : selection.entries ≠ [] := by
          intro he
          rw [Labels.count, he] at hct
          simp at hct
        obtain ⟨row, rest, hr⟩ := List.exists_cons_of_ne_nil hne
        have hvarslt := resolveVariables_lt tm.keys.names selection.names vars hres
        obtain ⟨l, hl, hbound⟩ := findMatchingAux_isSome vars row tm.keys.entries 0
          (fun r hrk i hi => by rw [hkeys r hrk]; exact hvarslt i hi)
        right
        refine ⟨l, ?_, fun j hj => ?_⟩
        · unfold TensorMap.find_matching_blocks
          rw [if_neg hsz, if_neg (by simp [hct]), hres, hr]
          simp [hl]
        · have hb := (hbound j hj).2
          rw [hlen]
          unfold Labels.count
          omega

/-- C6: every failure of this layer is a normal `Error` value: on a
well-formed tensor map (block count equal to key count, key rows of key
arity) no selection input makes `find_matching_blocks`, `blocks_matching`
or `block` reach a fatal non-`Error` failure (modelled as `none`) — in
particular a zero-column selection passed to `block` on a map whose match
count is not one reaches the error path, not the `selection[0]` access —
and `new` and `components_to_properties` only ever report failure as an
`InvalidParameter` error value. -/
theorem no_fatal_failures (tm : TensorMap) (selection : Labels)
    (hlen : tm.blocks.length = tm.keys.count)
    (hkeys : ∀ r ∈ tm.keys.entries, r.length = tm.keys.names.length) :
    tm.find_matching_blocks selection ≠ none ∧
    tm.blocks_matching selection ≠ none ∧
    tm.block selection ≠ none ∧
    (∀ (keys : Labels) (blocks : List TensorBlock),
      (∃ m, TensorMap.new keys blocks = .error (.InvalidParameter m)) ∨
      (∃ t, TensorMap.new keys blocks = .ok t)) ∧
    (∀ (tm2 : TensorMap) (vs : List String),
      (tm2.components_to_properties vs).2 = none ∨
      (∃ m, (tm2.components_to_properties vs).2 = some (.InvalidParameter m))) := by
  have hnew : ∀ (keys : Labels) (blocks : List TensorBlock),
      (∃ m, TensorMap.new keys blocks = .error (.InvalidParameter m)) ∨
      (∃ t, TensorMap.new keys blocks = .ok t) := by
    intro keys blocks
    rcases hres : TensorMap.new keys blocks with e | t
    · obtain ⟨m⟩ := e
      exact Or.inl ⟨m, rfl⟩
    · exact Or.inr ⟨t, rfl⟩
  have hc2p : ∀ (tm2 : TensorMap) (vs : List String),
      (tm2.components_to_properties vs).2 = none ∨
      (∃ m, (tm2.components_to_properties vs).2 = some (.InvalidParameter m)) := by
    intro tm2 vs
    rcases hres : (tm2.components_to_properties vs).2 with _ | e
    · exact Or.inl rfl
    · obtain ⟨m⟩ := e
      exact Or.inr ⟨m, rfl⟩
  rcases find_some_bounded tm selection hlen hkeys with ⟨e, hf⟩ | ⟨l, hf, hbound⟩
  · refine ⟨by simp [hf], ?_, ?_, hnew, hc2p⟩
    · simp [TensorMap.blocks_matching, hf]
    · simp [TensorMap.block, hf]
  · refine ⟨by simp [hf], ?_, ?_, hnew, hc2p⟩
    · obtain ⟨bs, hbs⟩ := selectBlocks_isSome tm.blocks l hbound
      simp [TensorMap.blocks_matching, hf, hbs]
    · by_cases h1 : l.length ≠ 1
      · obtain ⟨row, hrow⟩ := find_ok_index0 tm selection l hf
        simp [TensorMap.block, hf, h1, hrow]
      · push_neg at h1
        obtain ⟨i, hi⟩ := List.length_eq_one.mp h1
        subst hi
        have hilt : i < tm.blocks.length := hbound i (by simp)
        have hb : tm.blocks[i]? = some (tm.blocks.get ⟨i, hilt⟩) := by
          rw [← List.get?_eq_getElem?]
          exact List.get?_eq_get hilt
        simp [TensorMap.block, hf, hb]

/-- Witness for C6: a zero-column selection on a two-block map, whose match
count is 2, does not make `block` fail fatally. -/
theorem no_fatal_failures_witness :
    tmAB.blocks.length = tmAB.keys.count ∧
    (∀ r ∈ tmAB.keys.entries, r.length = tmAB.keys.names.length) ∧
    tmAB.block ⟨[], []⟩ ≠ none := by
  have h := no_fatal_failures tmAB ⟨[], []⟩ (by decide) (by decide)
  exact ⟨by decide, by decide, h.2.2.1⟩

theorem c2p_block_error (b : TensorBlock) (vars : List String) (v : String)
    (h : missingVariable (b.values.components.map (fun c => c.names)) vars = some v) :
    b.components_to_properties vars = .error (.InvalidParameter
      ("variable " ++ v ++ " is not part of the components of this block")) := by
  unfold TensorBlock.components_to_properties
  rw [h]

theorem c2p_block_ok (b : TensorBlock) (vars : List String)
    (h : missingVariable (b.values.components.map (fun c => c.names)) vars = none) :
    ∃ b2, b.components_to_properties vars = .ok b2 := by
  unfold TensorBlock.components_to_properties
  rw [h]
  exact ⟨_, rfl⟩

theorem c2pLoop_ok (vars : List String) (cn : List (List String))
    (hmv : missingVariable cn vars = none) :
    ∀ bs : List TensorBlock, (∀ b ∈ bs, b.values.components.map (fun c => c.names) = cn) →
      (c2pLoop vars bs).2 = none := by
  intro bs
  induction bs with
  | nil => intro _; rfl
  | cons b rest ih =>
    intro h
    obtain ⟨b2, hb2⟩ := c2p_block_ok b vars (by rw [h b (by simp)]; exact hmv)
    simp [c2pLoop, hb2, ih fun x hx => h x (by simp [hx])]

/-- C2: failed calls leave no partial state observable: a failed `new`
returns only an error and never a map, and on a tensor map whose blocks all
share their component names (the invariant `new` establishes), a failed
`components_to_properties` leaves every block unchanged, because the
block-level reshape fails on the first block or on none at all. -/
theorem failed_calls_are_atomic (tm : TensorMap) (vars : List String)
    (cn : List (List String))
    (hschema : ∀ b ∈ tm.blocks, b.values.components.map (fun c => c.names) = cn) :
    (∀ (keys : Labels) (blocks : List TensorBlock) (e : Error),
      TensorMap.new keys blocks = .error e → ∀ m, TensorMap.new keys blocks ≠ .ok m) ∧
    (∀ e, (tm.components_to_properties vars).2 = some e →
      (tm.components_to_properties vars).1 = tm) := by
  constructor
  · intro keys blocks e he m hm
    rw [he] at hm
    exact absurd hm (by simp)
  · intro e he
    by_cases hemp : vars.isEmpty
    · simp [TensorMap.components_to_properties, hemp] at he
    · rcases hmv : missingVariable cn vars with _ | v
      · have h2 := c2pLoop_ok vars cn hmv tm.blocks hschema
        simp [TensorMap.components_to_properties, hemp, h2] at he
      · cases hbs : tm.blocks with
        | nil =>
          simp [TensorMap.components_to_properties, hemp, hbs, c2pLoop] at he
        | cons b rest =>
          have hberr := c2p_block_error b vars v
            (by rw [hschema b (by rw [hbs]; simp)]; exact hmv)
          have hloop : c2pLoop vars (b :: rest) = (b :: rest, some (.InvalidParameter
              ("variable " ++ v ++ " is not part of the components of this block"))) := by
            simp [c2pLoop, hberr]
          have hstate : (tm.components_to_properties vars).1 = ⟨tm.keys, b :: rest⟩ := by
            simp [TensorMap.components_to_properties, hemp, hbs, hloop]
          rw [hstate, ← hbs]

/-- Witness for C2: a single-block map whose block has no components, on
which the reshape fails and the final state equals the initial state. -/
theorem failed_calls_are_atomic_witness :
    (∀ b ∈ (⟨exampleLabels "keys" 1, [blockD]⟩ : TensorMap).blocks,
      b.values.components.map (fun c => c.names) = ([] : List (List String))) ∧
    ((⟨exampleLabels "keys" 1, [blockD]⟩ : TensorMap).components_to_properties ["x"]).2
      = some (.InvalidParameter "variable x is not part of the components of this block") ∧
    ((⟨exampleLabels "keys" 1, [blockD]⟩ : TensorMap).components_to_properties ["x"]).1
      = ⟨exampleLabels "keys" 1, [blockD]⟩ := by
  have h := (failed_calls_are_atomic ⟨exampleLabels "keys" 1, [blockD]⟩ ["x"] []
    (by decide)).2
  exact ⟨by decide, by rfl,
    h (.InvalidParameter "variable x is not part of the components of this block") (by rfl)⟩

theorem all_map_general {α β : Type} (f : α → β) (l : List α) (p : β → Bool) :
    (l.map f).all p = l.all (fun a => p (f a)) := by
  induction l with
  | nil => rfl
  | cons a rest ih => simp [ih]

theorem findNameIdx_eq_indexOf (n : String) : ∀ names : List String, n ∈ names →
    findNameIdx n names = some (names.indexOf n) := by
  intro names
  induction names with
  | nil => intro h; simp at h
  | cons m rest ih =>
    intro h
    by_cases he : n = m
    · subst he
      simp [findNameIdx, List.indexOf_cons_self]
    · have hr : n ∈ rest := by
        rcases List.mem_cons.mp h with h1 | h2
        · exact absurd h1 he
        · exact h2
      rw [List.indexOf_cons_ne rest fun hme => he hme.symm]
      simp [findNameIdx, he, ih hr, Nat.succ_eq_add_one]

theorem resolveVariables_ok (keyNames : List String) : ∀ selNames : List String,
    (∀ n ∈ selNames, n ∈ keyNames) →
    resolveVariables keyNames selNames
      = .ok (selNames.map (fun n => keyNames.indexOf n)) := by
  intro selNames
  induction selNames with
  | nil => intro _; rfl
  | cons n rest ih =>
    intro h
    simp only [resolveVariables]
    rw [findNameIdx_eq_indexOf n keyNames (h n (by simp)), ih fun m hm => h m (by simp [hm])]
    simp

theorem findMatchingAux_eq_filter (vars : List Nat) (vals : List LabelValue) :
    ∀ (rows : List (List LabelValue)) (k : Nat),
      (∀ r ∈ rows, ∀ i ∈ vars, i < r.length) →
      findMatchingAux vars vals rows k
        = some (((List.enumFrom k rows).filter
            (fun p => (vars.zip vals).all (fun q => p.2.getD q.1 0 == q.2))).map Prod.fst) := by
  intro rows
  induction rows with
  | nil => intro k _; simp [findMatchingAux]
  | cons row rest ih =>
    intro k h
    rw [List.enumFrom_cons]
    have hrow := rowSelected_eq_all row vars vals (h row (by simp))
    have hrec := ih (k + 1) fun r hr => h r (by simp [hr])
    by_cases hb : (vars.zip vals).all (fun q => row.getD q.1 0 == q.2)
    · rw [hb] at hrow
      simp only [findMatchingAux, hrow, hrec]
      rw [List.filter_cons, if_pos (by simpa using hb), List.map_cons]
    · have hbf : (vars.zip vals).all (fun q => row.getD q.1 0 == q.2) = false := by
        simpa using hb
      rw [hbf] at hrow
      simp only [findMatchingAux, hrow, hrec]
      rw [List.filter_cons, if_neg (by simpa using hbf)]

/-- C3: for a selection with at least one column, exactly one row and column
names all present in the key names, on a tensor map with well-formed keys,
`find_matching_blocks` succeeds and returns exactly the indices of the key
rows that agree with the selection on every selected column (unselected
columns unconstrained), in ascending order. -/
theorem find_matching_blocks_correct (tm : TensorMap) (selection : Labels)
    (vals : List LabelValue)
    (hne : selection.names ≠ [])
    (hrow : selection.entries = [vals])
    (hsub : ∀ n ∈ selection.names, n ∈ tm.keys.names)
    (hkeys : ∀ r ∈ tm.keys.entries, r.length = tm.keys.names.length) :
    tm.find_matching_blocks selection = some (.ok
      ((tm.keys.entries.enum.filter
        (fun p => agreesOnSelected tm.keys.names selection.names vals p.2)).map Prod.fst)) ∧
    List.Pairwise (fun a b => a < b)
      ((tm.keys.entries.enum.filter
        (fun p => agreesOnSelected tm.keys.names selection.names vals p.2)).map Prod.fst) := by
  have hsz : ¬ selection.size = 0 := by
    simp only [Labels.size, List.length_eq_zero]
    exact hne
  have hct : selection.count = 1 := by
    rw [Labels.count, hrow]
    rfl
  have hres := resolveVariables_ok tm.keys.names selection.names hsub
  have hbounds : ∀ r ∈ tm.keys.entries,
      ∀ i ∈ selection.names.map (fun n => tm.keys.names.indexOf n), i < r.length := by
    intro r hr i hi
    rw [hkeys r hr]
    obtain ⟨n, hn, hidx⟩ := List.mem_map.mp hi
    rw [← hidx]
    exact List.indexOf_lt_length.mpr (hsub n hn)
  have hfma := findMatchingAux_eq_filter
    (selection.names.map (fun n => tm.keys.names.indexOf n)) vals tm.keys.entries 0 hbounds
  have hpred : ∀ p : Nat × List LabelValue,
      (((selection.names.map (fun n => tm.keys.names.indexOf n)).zip vals).all
        (fun q => p.2.getD q.1 0 == q.2))
      = agreesOnSelected tm.keys.names selection.names vals p.2 := by
    intro p
    unfold agreesOnSelected
    rw [List.zip_map_left, all_map_general]
    rfl
  have hfind : tm.find_matching_blocks selection = some (.ok
      ((tm.keys.entries.enum.filter
        (fun p => agreesOnSelected tm.keys.names selection.names vals p.2)).map Prod.fst)) := by
    unfold TensorMap.find_matching_blocks
    rw [if_neg hsz, if_neg (by simp [hct]), hres, hrow]
    simp only [List.head?_cons]
    rw [show (List.enum tm.keys.entries) = List.enumFrom 0 tm.keys.entries from rfl]
    rw [← List.filter_congr fun x _ => hpred x]
    simp only [hfma]
  refine ⟨hfind, ?_⟩
  have hsub2 : (((tm.keys.entries.enum.filter
      (fun p => agreesOnSelected tm.keys.names selection.names vals p.2)).map Prod.fst)).Sublist
      (tm.keys.entries.enum.map Prod.fst) :=
    List.Sublist.map Prod.fst (List.filter_sublist _)
  rw [List.enum_map_fst] at hsub2
  exact List.Pairwise.sublist hsub2 (List.pairwise_lt_range _)

/-- Witness for C3 at a one-column, one-row selection on the two-block
example map: only the key row `[1]` agrees with the selection. -/
theorem find_matching_blocks_correct_witness :
    (⟨["keys"], [[1]]⟩ : Labels).names ≠ [] ∧
    (⟨["keys"], [[1]]⟩ : Labels).entries = [[1]] ∧
    (∀ n ∈ (⟨["keys"], [[1]]⟩ : Labels).names, n ∈ tmAB.keys.names) ∧
    (∀ r ∈ tmAB.keys.entries, r.length = tmAB.keys.names.length) ∧
    tmAB.find_matching_blocks ⟨["keys"], [[1]]⟩ = some (.ok
      ((tmAB.keys.entries.enum.filter
        (fun p => agreesOnSelected tmAB.keys.names ["keys"] [1] p.2)).map Prod.fst)) ∧
    tmAB.find_matching_blocks ⟨["keys"], [[1]]⟩ = some (.ok [1]) := by
  have h := find_matching_blocks_correct tmAB ⟨["keys"], [[1]]⟩ [1]
    (by decide) (by decide) (by decide) (by decide)
  exact ⟨by decide, by decide, by decide, by decide, h.1, by rfl⟩

end Metatensor
